import Mathlib

/-!
Verification of the staff-scheduling core of this repository
(`src/ai/agentic-ai-service/src/agents/staff_agent.py`).

The Python module is shallowly embedded below: pydantic models become
structures, `datetime` values become an abstract record carrying the
timeline position in hours together with the hour-of-day and weekday
(which is all of the `datetime` API that the module uses), floats become
exact rationals, and code paths that raise (`ValueError` from reducing an
empty numpy array, `ZeroDivisionError`, a call to the missing
`_cost_optimization` attribute) are embedded with `Except String`.
`scipy.optimize.linear_sum_assignment` is library code whose source is not
part of the repository; it is modelled from its documented contract as an
exact minimum-total-cost one-to-one assignment, realised executably as an
argmin over all maximum-cardinality partial matchings.
-/

namespace StaffScheduling

/-- Abstraction of a Python `datetime`: the fields of the `datetime` API the
module actually touches.  `epochHours` is the point on the global timeline
measured in hours, so `(t2 - t1).total_seconds() / 3600` becomes
`t2.epochHours - t1.epochHours`; `hour` is `dt.hour` and `weekday` is
`dt.weekday()` (both always in range for a real `datetime`). -/
structure PyDateTime where
  epochHours : ℚ
  hour : Fin 24
  weekday : Fin 7
deriving DecidableEq

/-- `StaffProfile` (pydantic model).  `availability_matrix` is the
24 h × 7 day boolean matrix, indexed `[hour][day]` as in the source. -/
structure StaffProfile where
  staffId : String
  name : String
  department : String
  skills : List String
  experienceLevel : String
  preferredShift : String
  maxHoursPerWeek : ℤ
  hourlyRate : ℚ
  performanceScore : ℚ := 0
  availabilityMatrix : Fin 24 → Fin 7 → Bool := fun _ _ => true
  currentWorkload : ℚ := 0
  fatigueLevel : ℚ := 0
  preferencesWeight : ℚ := 0.3

/-- `ShiftRequirement` (pydantic model). -/
structure ShiftRequirement where
  shiftId : String
  department : String
  requiredSkills : List String
  startTime : PyDateTime
  endTime : PyDateTime
  durationHours : ℚ
  minStaff : ℤ
  optimalStaff : ℤ
  priority : String
  location : String
  complexityScore : ℚ := 1

/-- `OptimizationConstraints` (pydantic model). -/
structure OptimizationConstraints where
  maxHoursPerWeek : ℤ := 38
  minRestBetweenShifts : ℤ := 11
  maxConsecutiveDays : ℤ := 6
  maxOvertimePerWeek : ℤ := 10
  minStaffPerShift : List (String × ℤ) :=
    [("yoga", 2), ("spa", 3), ("reception", 1), ("cleaning", 1)]
  skillMatchThreshold : ℚ := 0.7
  fairnessWeight : ℚ := 0.4

/-- One assignment dict as produced by the solver strategies:
`{"staff_index": i, "shift_index": j, "assignment_cost": c, "suitability": 1 - c}`.
Indices are `Fin`-typed: the module only ever creates them from matrix
positions, so they are in range by construction. -/
structure Assignment (n m : ℕ) where
  staffIndex : Fin n
  shiftIndex : Fin m
  assignmentCost : ℚ
  suitability : ℚ
deriving DecidableEq

/-- The metrics dict built by `_calculate_optimization_metrics` for a
non-empty assignment list.  All entries are exact rationals except that the
source's `workload_std_dev` (`np.std`) is an irrational square root; the
embedding stores its square (the population variance) in
`workloadStdDevSq`, which determines it. -/
structure OptimizationMetrics where
  coveragePercentage : ℚ
  avgSuitabilityScore : ℚ
  workloadFairness : ℚ
  skillUtilizationPercentage : ℚ
  preferenceSatisfaction : ℚ
  totalAssignments : ℚ
  unassignedShifts : ℚ
  avgHoursPerStaff : ℚ
  workloadStdDevSq : ℚ
deriving DecidableEq

/-- `ScheduleOptimizationResult`.  The `optimization_id` and `generated_at`
fields are wall-clock stamps (`datetime.now()`) and are omitted from the
embedding; `metrics` is `none` exactly when the source returns the empty
dict `{}`. -/
structure ScheduleOptimizationResult (n m : ℕ) where
  status : String
  assignments : List (Assignment n m)
  metrics : Option OptimizationMetrics
  constraintsViolations : List String
  recommendations : List String
deriving DecidableEq

/-! ### Helper methods (`_encode_*`, `_get_hour_of_day`, scoring helpers) -/

/-- `_encode_experience` -/
def encodeExperience (level : String) : ℚ :=
  if level.toLower = "beginner" then 0.3
  else if level.toLower = "intermediate" then 0.6
  else if level.toLower = "advanced" then 0.9
  else if level.toLower = "expert" then 1
  else 0.5

/-- `_encode_shift_preference` -/
def encodeShiftPreference (preference : String) : ℚ :=
  if preference.toLower = "morning" then 0
  else if preference.toLower = "afternoon" then 0.33
  else if preference.toLower = "evening" then 0.66
  else if preference.toLower = "night" then 1
  else if preference.toLower = "flexible" then 0.5
  else 0.5

/-- `_encode_priority` -/
def encodePriority (priority : String) : ℚ :=
  if priority.toLower = "low" then 0.2
  else if priority.toLower = "medium" then 0.5
  else if priority.toLower = "high" then 0.8
  else if priority.toLower = "critical" then 1
  else 0.5

/-- `_get_hour_of_day` -/
def getHourOfDay (dt : PyDateTime) : ℚ := (dt.hour.val : ℚ) / 24

/-- `_calculate_skill_match`: Jaccard similarity of the two skill sets,
`1.0` when the shift requires no skills.  The source's second emptiness
test (on the set rather than the list) and its `union > 0` guard are kept
even though they are redundant after the first test. -/
def calculateSkillMatch (staffSkills requiredSkills : List String) : ℚ :=
  if requiredSkills = [] then 1
  else
    let staffSet := staffSkills.toFinset
    let requiredSet := requiredSkills.toFinset
    if requiredSet = ∅ then 1
    else if 0 < (staffSet ∪ requiredSet).card then
      ((staffSet ∩ requiredSet).card : ℚ) / ((staffSet ∪ requiredSet).card : ℚ)
    else 0

/-- `_check_availability`: 1.0 iff the availability matrix marks the
shift's start hour/weekday; the source's range guard on the hour and
weekday is kept (it always holds for `Fin`-typed fields, exactly as it
always holds for a real `datetime`). -/
def checkAvailability (staff : StaffProfile) (shift : ShiftRequirement) : ℚ :=
  if shift.startTime.weekday.val < 7 ∧ shift.startTime.hour.val < 24 then
    if staff.availabilityMatrix shift.startTime.hour shift.startTime.weekday then 1 else 0
  else 0

/-- `_calculate_preference_score` -/
def calculatePreferenceScore (staff : StaffProfile) (shift : ShiftRequirement) : ℚ :=
  let shiftHour := shift.startTime.hour.val
  if staff.preferredShift = "morning" ∧ 6 ≤ shiftHour ∧ shiftHour < 12 then 1
  else if staff.preferredShift = "afternoon" ∧ 12 ≤ shiftHour ∧ shiftHour < 18 then 1
  else if staff.preferredShift = "evening" ∧ 18 ≤ shiftHour ∧ shiftHour < 22 then 1
  else if staff.preferredShift = "night" ∧ ((22 ≤ shiftHour ∧ shiftHour < 24) ∨ shiftHour < 6) then 1
  else if staff.preferredShift = "flexible" then 0.8
  else 0.3

/-- `_calculate_gini_coefficient`: half the mean absolute pairwise
difference divided by the mean (`gini = 0.5 * rmad`), 0 when the mean is 0. -/
def calculateGiniCoefficient (x : List ℚ) : ℚ :=
  let n : ℚ := x.length
  let mad : ℚ := ((x.map (fun a => (x.map (fun b => |a - b|)).sum)).sum) / (n * n)
  let mean : ℚ := x.sum / n
  let rmad : ℚ := if mean ≠ 0 then mad / mean else 0
  0.5 * rmad

/-! ### Scoring Engine (`_calculate_cost_matrix`) -/

/-- `_calculate_cost_matrix`.  The numerical staff/shift matrices that the
source also passes in are unused by the computation (the loop reads the
profiles and requirements directly), so they are not parameters here. -/
def calculateCostMatrix (staff : List StaffProfile) (shifts : List ShiftRequirement)
    (_constraints : OptimizationConstraints) :
    Fin staff.length → Fin shifts.length → ℚ := fun i j =>
  let p := staff.get i
  let sh := shifts.get j
  let skillScore := calculateSkillMatch p.skills sh.requiredSkills
  let availabilityScore := checkAvailability p sh
  let preferenceScore := calculatePreferenceScore p sh
  let departmentScore : ℚ := if p.department = sh.department then 1 else 0.5
  let workloadPenalty : ℚ := max 0 (p.currentWorkload - (p.maxHoursPerWeek : ℚ) * 0.8)
  let suitability :=
    skillScore * 0.3 + availabilityScore * 0.25 + preferenceScore * 0.2 +
      departmentScore * 0.15 - workloadPenalty * 0.1
  1 - suitability

/-! ### Assignment Solver

`scipy.optimize.linear_sum_assignment` returns a one-to-one assignment of
maximum cardinality `min n m` whose total cost is minimal; that contract is
the model here (the repository does not contain the library source).  A
candidate solution is a set of (row, column) pairs with pairwise-distinct
rows and pairwise-distinct columns of cardinality `min n m`, and the solver
is an argmin over all of them. -/

/-- A list of (row, column) pairs is a one-to-one partial matching when its
rows are pairwise distinct and its columns are pairwise distinct. -/
def IsMatchingList {n m : ℕ} (l : List (Fin n × Fin m)) : Prop :=
  (l.map Prod.fst).Nodup ∧ (l.map Prod.snd).Nodup

instance {n m : ℕ} (l : List (Fin n × Fin m)) : Decidable (IsMatchingList l) := by
  unfold IsMatchingList; infer_instance

/-- All (row, column) pairs in row-major order. -/
def allPairs (n m : ℕ) : List (Fin n × Fin m) :=
  (List.finRange n).product (List.finRange m)

/-- Every one-to-one matching of cardinality `min n m`, enumerated as the
sublists of the row-major pair list that are matchings of that length. -/
def fullMatchingLists (n m : ℕ) : List (List (Fin n × Fin m)) :=
  (allPairs n m).sublists.filter fun l =>
    decide (IsMatchingList l ∧ l.length = min n m)

/-- Total cost of a matching over a cost matrix. -/
def matchingListCost {n m : ℕ} (c : Fin n → Fin m → ℚ)
    (l : List (Fin n × Fin m)) : ℚ :=
  (l.map fun p => c p.1 p.2).sum

/-- The minimum-total-cost maximum-cardinality matching (model of
`linear_sum_assignment`, per its documented contract). -/
def linearSumAssignment {n m : ℕ} (c : Fin n → Fin m → ℚ) :
    Option (List (Fin n × Fin m)) :=
  (fullMatchingLists n m).argmin (matchingListCost c)

/-- `_hungarian_optimization` (with its never-taken `maximize=True` branch
omitted: every call site passes `maximize=False`). -/
def hungarianOptimization {n m : ℕ} (c : Fin n → Fin m → ℚ) : List (Assignment n m) :=
  match linearSumAssignment c with
  | some l => l.map fun p =>
      { staffIndex := p.1, shiftIndex := p.2,
        assignmentCost := c p.1 p.2, suitability := 1 - c p.1 p.2 }
  | none => []

/-- Row-wise min-max normalization used by `_fairness_optimization`:
a row is rescaled only when its maximum strictly exceeds its minimum. -/
def normalizedCostMatrix {n m : ℕ} (c : Fin n → Fin m → ℚ) :
    Fin n → Fin m → ℚ := fun i j =>
  let row := (List.finRange m).map (c i)
  match row.max?, row.min? with
  | some mx, some mn => if mn < mx then (c i j - mn) / (mx - mn) else c i j
  | _, _ => c i j

/-- `_fairness_optimization`.  When there is at least one staff row and no
shift columns, `np.max` reduces an empty row and raises `ValueError`, which
the embedding surfaces as an `Except.error`. -/
def fairnessOptimization {n m : ℕ} (c : Fin n → Fin m → ℚ) :
    Except String (List (Assignment n m)) :=
  if n ≠ 0 ∧ m = 0 then
    Except.error "zero-size array to reduction operation maximum which has no identity"
  else
    Except.ok (hungarianOptimization (normalizedCostMatrix c))

/-- Relation sorting candidate assignments by descending suitability
(`key=lambda x: x["suitability"], reverse=True`). -/
abbrev bySuitabilityDesc {n m : ℕ} (a b : Assignment n m) : Prop :=
  b.suitability ≤ a.suitability

/-- The greedy conflict-free merge inside `_balanced_optimization`: walk the
candidate list, keeping an assignment iff neither its staff index nor its
shift index has been claimed. -/
def greedyMerge {n m : ℕ} (assignedStaff : Finset (Fin n)) (assignedShifts : Finset (Fin m)) :
    List (Assignment n m) → List (Assignment n m)
  | [] => []
  | a :: rest =>
    if a.staffIndex ∉ assignedStaff ∧ a.shiftIndex ∉ assignedShifts then
      a :: greedyMerge (insert a.staffIndex assignedStaff) (insert a.shiftIndex assignedShifts) rest
    else
      greedyMerge assignedStaff assignedShifts rest

/-- `_balanced_optimization`: concatenate the efficiency and fairness
results, sort by descending suitability (a stable sort, as in CPython), and
greedily keep conflict-free pairs. -/
def balancedOptimization {n m : ℕ} (c : Fin n → Fin m → ℚ) :
    Except String (List (Assignment n m)) := do
  let efficiencyAssignments := hungarianOptimization c
  let fairnessAssignments ← fairnessOptimization c
  let allAssignments :=
    (efficiencyAssignments ++ fairnessAssignments).insertionSort bySuitabilityDesc
  Except.ok (greedyMerge ∅ ∅ allAssignments)

/-! ### Constraint Validator (`_apply_constraints`) -/

/-- The per-staff bookkeeping of `_apply_constraints`: accumulated weekly
hours (initialised to 0 for every staff index — the profile's
`current_workload` is never consulted) and the end time of the most
recently accepted shift (initially `None`). -/
structure ValidatorState (n : ℕ) where
  hours : Fin n → ℚ
  lastEnd : Fin n → Option ℚ

/-- Sort key used to replay assignments chronologically: the start time of
the referenced shift. -/
abbrev byShiftStart (shifts : List ShiftRequirement) {n : ℕ}
    (a b : Assignment n shifts.length) : Prop :=
  (shifts.get a.shiftIndex).startTime.epochHours ≤ (shifts.get b.shiftIndex).startTime.epochHours

/-- The three checks of `_apply_constraints` on one assignment: weekly-hour
cap, minimum rest since the staff member's previously accepted shift (only
when one exists; a `datetime` is always truthy), and the skill-match
threshold.  `true` means at least one violation was recorded. -/
def violatesConstraints (staff : List StaffProfile) (shifts : List ShiftRequirement)
    (constraints : OptimizationConstraints) (st : ValidatorState staff.length)
    (a : Assignment staff.length shifts.length) : Bool :=
  let p := staff.get a.staffIndex
  let sh := shifts.get a.shiftIndex
  decide ((p.maxHoursPerWeek : ℚ) < st.hours a.staffIndex + sh.durationHours) ||
  (match st.lastEnd a.staffIndex with
   | none => false
   | some lastEnd =>
     decide (sh.startTime.epochHours - lastEnd < (constraints.minRestBetweenShifts : ℚ))) ||
  decide (calculateSkillMatch p.skills sh.requiredSkills < constraints.skillMatchThreshold)

/-- State update on acceptance: add the shift's duration to the staff
member's hours and record the shift's end time. -/
def acceptAssignment (shifts : List ShiftRequirement) {n : ℕ}
    (st : ValidatorState n) (a : Assignment n shifts.length) : ValidatorState n :=
  { hours := Function.update st.hours a.staffIndex
      (st.hours a.staffIndex + (shifts.get a.shiftIndex).durationHours),
    lastEnd := Function.update st.lastEnd a.staffIndex
      (some (shifts.get a.shiftIndex).endTime.epochHours) }

/-- The chronological replay loop of `_apply_constraints`: keep an
assignment iff no check fails, updating the state only on acceptance. -/
def validateLoop (staff : List StaffProfile) (shifts : List ShiftRequirement)
    (constraints : OptimizationConstraints) (st : ValidatorState staff.length) :
    List (Assignment staff.length shifts.length) →
      List (Assignment staff.length shifts.length)
  | [] => []
  | a :: rest =>
    if violatesConstraints staff shifts constraints st a then
      validateLoop staff shifts constraints st rest
    else
      a :: validateLoop staff shifts constraints (acceptAssignment shifts st a) rest

/-- `_apply_constraints`: enrich with shift times (here recomputed from the
shift index wherever needed, which is the same data), sort ascending by
shift start time with a stable sort, and replay.  Rejected assignments are
silently dropped; the locally collected violation strings are discarded by
the source as well. -/
def applyConstraints (staff : List StaffProfile) (shifts : List ShiftRequirement)
    (constraints : OptimizationConstraints)
    (assignments : List (Assignment staff.length shifts.length)) :
    List (Assignment staff.length shifts.length) :=
  validateLoop staff shifts constraints
    ⟨fun _ => 0, fun _ => none⟩
    (assignments.insertionSort (byShiftStart shifts))

/-! ### Metrics & Fairness Analyzer (`_calculate_optimization_metrics`) -/

/-- Per-staff validated hours, in staff-index order (the source accumulates
them in a dict keyed `0 .. n-1` in insertion order). -/
def perStaffHours (staff : List StaffProfile) (shifts : List ShiftRequirement)
    (assignments : List (Assignment staff.length shifts.length)) : List ℚ :=
  (List.finRange staff.length).map fun i =>
    ((assignments.filter fun a => decide (a.staffIndex = i)).map
      fun a => (shifts.get a.shiftIndex).durationHours).sum

/-- `_calculate_optimization_metrics`: `none` models the early
`return {}` for an empty assignment list. -/
def calculateOptimizationMetrics (staff : List StaffProfile)
    (shifts : List ShiftRequirement)
    (assignments : List (Assignment staff.length shifts.length)) :
    Option OptimizationMetrics :=
  if assignments = [] then none
  else
    let totalShifts := shifts.length
    let coverage : ℚ :=
      if 0 < totalShifts then (assignments.length : ℚ) / (totalShifts : ℚ) else 0
    let avgSuitability : ℚ :=
      if assignments = [] then 0
      else ((assignments.map Assignment.suitability).sum) / (assignments.length : ℚ)
    let hoursArray := perStaffHours staff shifts assignments
    let giniCoefficient := calculateGiniCoefficient hoursArray
    let totalSkillRequirements : ℕ := (shifts.map fun s => s.requiredSkills.length).sum
    let matchedSkills : ℕ :=
      (assignments.map fun a =>
        ((staff.get a.staffIndex).skills.toFinset ∩
          (shifts.get a.shiftIndex).requiredSkills.toFinset).card).sum
    let skillUtilization : ℚ :=
      if 0 < totalSkillRequirements then
        (matchedSkills : ℚ) / (totalSkillRequirements : ℚ)
      else 0
    let preferenceScore : ℚ :=
      (assignments.map fun a =>
        calculatePreferenceScore (staff.get a.staffIndex) (shifts.get a.shiftIndex)).sum
    let avgPreference : ℚ :=
      if assignments = [] then 0 else preferenceScore / (assignments.length : ℚ)
    let meanHours : ℚ :=
      if 0 < hoursArray.length then hoursArray.sum / (hoursArray.length : ℚ) else 0
    some {
      coveragePercentage := coverage * 100
      avgSuitabilityScore := avgSuitability * 100
      workloadFairness := (1 - giniCoefficient) * 100
      skillUtilizationPercentage := skillUtilization * 100
      preferenceSatisfaction := avgPreference * 100
      totalAssignments := (assignments.length : ℚ)
      unassignedShifts := (totalShifts : ℚ) - (assignments.length : ℚ)
      avgHoursPerStaff := meanHours
      workloadStdDevSq :=
        if 0 < hoursArray.length then
          ((hoursArray.map fun x => (x - meanHours) ^ 2).sum) / (hoursArray.length : ℚ)
        else 0 }

/-- `_generate_recommendations`: reads the metrics dict with `.get` and its
defaults (0, 100, 0, 0), so an empty dict triggers the coverage, training
and preference rules. -/
def generateRecommendations {n m : ℕ} (metrics : Option OptimizationMetrics)
    (assignments : List (Assignment n m)) : List String :=
  (if (metrics.elim 0 OptimizationMetrics.coveragePercentage) < 90 then
    ["Increase hiring or offer overtime to cover all shifts"] else []) ++
  (if (metrics.elim 100 OptimizationMetrics.workloadFairness) < 80 then
    ["Redistribute workload for better fairness among staff"] else []) ++
  (if (metrics.elim 0 OptimizationMetrics.skillUtilizationPercentage) < 70 then
    ["Provide cross-training to improve skill matching"] else []) ++
  (if (metrics.elim 0 OptimizationMetrics.preferenceSatisfaction) < 75 then
    ["Consider staff preferences more in scheduling"] else []) ++
  (if 0 < assignments.length then
    ["Schedule is optimized with current constraints"] else [])

/-- `_check_constraints_violations` -/
def checkConstraintsViolations {n m : ℕ} (assignments : List (Assignment n m))
    (_constraints : OptimizationConstraints) : List String :=
  if assignments.length = 0 then ["No assignments made - check constraints"] else []

/-! ### Top-level `optimize_schedule` -/

/-- `_create_staff_matrix`: raises `ZeroDivisionError` when a profile has
`max_hours_per_week = 0` (the float division in the last feature). -/
def createStaffMatrix (staff : List StaffProfile) : Except String (List (List ℚ)) :=
  staff.mapM fun p =>
    if (p.maxHoursPerWeek : ℚ) = 0 then Except.error "float division by zero"
    else Except.ok
      [encodeExperience p.experienceLevel,
       (p.skills.length : ℚ) / 10,
       encodeShiftPreference p.preferredShift,
       p.performanceScore,
       1 - p.fatigueLevel,
       p.currentWorkload / (p.maxHoursPerWeek : ℚ)]

/-- `_create_shift_matrix` -/
def createShiftMatrix (shifts : List ShiftRequirement) : List (List ℚ) :=
  shifts.map fun s =>
    [encodePriority s.priority,
     s.complexityScore,
     (s.requiredSkills.length : ℚ) / 5,
     getHourOfDay s.startTime,
     s.durationHours / 8]

/-- Strategy dispatch in `optimize_schedule`.  The `"cost"` branch calls
`self._cost_optimization`, a method that is nowhere defined in the module,
so it raises `AttributeError`; every string other than the three named
strategies falls through to `"balanced"`. -/
def runOptimizationStrategy {n m : ℕ} (optimizationType : String)
    (c : Fin n → Fin m → ℚ) : Except String (List (Assignment n m)) :=
  if optimizationType = "efficiency" then Except.ok (hungarianOptimization c)
  else if optimizationType = "fairness" then fairnessOptimization c
  else if optimizationType = "cost" then
    Except.error "StaffAIAgent object has no attribute _cost_optimization"
  else balancedOptimization c

/-- The body of the `try` block of `optimize_schedule`. -/
def optimizePipeline (staff : List StaffProfile) (shifts : List ShiftRequirement)
    (constraints : OptimizationConstraints) (optimizationType : String) :
    Except String (ScheduleOptimizationResult staff.length shifts.length) := do
  let _staffMatrix ← createStaffMatrix staff
  let _shiftMatrix := createShiftMatrix shifts
  let costMatrix := calculateCostMatrix staff shifts constraints
  let assignments ← runOptimizationStrategy optimizationType costMatrix
  let validatedAssignments := applyConstraints staff shifts constraints assignments
  let metrics := calculateOptimizationMetrics staff shifts validatedAssignments
  let recommendations := generateRecommendations metrics validatedAssignments
  Except.ok
    { status := if 0 < validatedAssignments.length then "success" else "partial"
      assignments := validatedAssignments
      metrics := metrics
      constraintsViolations := checkConstraintsViolations validatedAssignments constraints
      recommendations := recommendations }

/-- `optimize_schedule`: the `except` clause converts any internal
exception into a `failed`-status result carrying the error message and the
manual-scheduling fallback recommendation. -/
def optimizeSchedule (staff : List StaffProfile) (shifts : List ShiftRequirement)
    (constraints : OptimizationConstraints) (optimizationType : String) :
    ScheduleOptimizationResult staff.length shifts.length :=
  match optimizePipeline staff shifts constraints optimizationType with
  | Except.ok result => result
  | Except.error e =>
    { status := "failed"
      assignments := []
      metrics := none
      constraintsViolations := [e]
      recommendations := ["Fallback to manual scheduling"] }

/-! ### Burnout Predictor (`_predict_burnout_risk`) -/

/-- One entry of the `current_assignments` list consumed by
`balance_workload`: the two keys the burnout predictor reads
(`a.get("staff_id")` and `a.get("duration_hours", 0)`). -/
structure CurrentAssignment where
  staffId : String
  durationHours : ℚ

/-- Hours assigned to a given staff id in the current assignment list. -/
def assignedHoursFor (assignments : List CurrentAssignment) (staffId : String) : ℚ :=
  ((assignments.filter fun a => decide (a.staffId = staffId)).map
    CurrentAssignment.durationHours).sum

/-- `_predict_burnout_risk` for one staff member: workload factor (capped
at 0.4), fatigue factor, overtime factor (capped at 0.2), the fixed 0.1
consecutive-days placeholder, all clamped to 1.0. -/
def predictBurnoutRiskFor (staff : StaffProfile)
    (assignments : List CurrentAssignment) : ℚ :=
  let assignedHours := assignedHoursFor assignments staff.staffId
  let utilization : ℚ :=
    if 0 < (staff.maxHoursPerWeek : ℚ) then assignedHours / (staff.maxHoursPerWeek : ℚ)
    else 0
  let riskScore : ℚ :=
    min (utilization * 0.4) 0.4 + staff.fatigueLevel * 0.3 +
      min (max 0 (assignedHours - 38.5) * 0.01) 0.2 + 0.1
  min riskScore 1

/-- `_predict_burnout_risk`: the per-staff risk dict. -/
def predictBurnoutRisk (staff : List StaffProfile)
    (assignments : List CurrentAssignment) : List (String × ℚ) :=
  staff.map fun p => (p.staffId, predictBurnoutRiskFor p assignments)

/-! ### Specification-side definitions and concrete instances

`giniAsClaimed` is the only definition below taken from the specification's
wording rather than from the source: the spec describes the Gini
coefficient as "mean absolute pairwise difference divided by the mean
(0 when the mean is 0)" with no ½ factor, and it is stated here verbatim
so that it can be compared against the source's
`calculateGiniCoefficient`. -/

/-- The Gini coefficient as the specification words it: mean absolute
pairwise difference divided by the mean, 0 when the mean is 0 (no ½
factor). -/
def giniAsClaimed (x : List ℚ) : ℚ :=
  let n : ℚ := x.length
  let mad : ℚ := ((x.map (fun a => (x.map (fun b => |a - b|)).sum)).sum) / (n * n)
  let mean : ℚ := x.sum / n
  if mean ≠ 0 then mad / mean else 0

/-- All-default constraints (38 h week, 11 h rest, 0.7 skill threshold). -/
def sampleConstraints : OptimizationConstraints := {}

/-- A staff member already at their weekly cap:
`current_workload = max_hours_per_week = 38`. -/
def workedStaff : StaffProfile :=
  { staffId := "s1", name := "A", department := "spa", skills := [],
    experienceLevel := "intermediate", preferredShift := "flexible",
    maxHoursPerWeek := 38, hourlyRate := 20, currentWorkload := 38 }

/-- A staff member with a clear week. -/
def restedStaff : StaffProfile :=
  { staffId := "s2", name := "B", department := "spa", skills := [],
    experienceLevel := "intermediate", preferredShift := "flexible",
    maxHoursPerWeek := 38, hourlyRate := 20 }

/-- An 8-hour shift starting at hour 9 on weekday 0, requiring no skills. -/
def morningShift : ShiftRequirement :=
  { shiftId := "sh1", department := "spa", requiredSkills := [],
    startTime := ⟨9, 9, 0⟩, endTime := ⟨17, 17, 0⟩, durationHours := 8,
    minStaff := 1, optimalStaff := 1, priority := "medium", location := "main" }

/-- A 10-hour shift, used to produce the per-staff hour vector `[10, 0]`. -/
def tenHourShift : ShiftRequirement :=
  { shiftId := "sh2", department := "spa", requiredSkills := [],
    startTime := ⟨9, 9, 0⟩, endTime := ⟨19, 19, 0⟩, durationHours := 10,
    minStaff := 1, optimalStaff := 1, priority := "medium", location := "main" }

/-- The single candidate assignment staff 0 → shift 0 in a 1×1 instance. -/
def extraAssignment : Assignment 1 1 := ⟨0, 0, 0, 1⟩

/-- The assignment staff 0 → shift 0 in a 2-staff, 1-shift instance. -/
def loneAssignment : Assignment 2 1 := ⟨0, 0, 0, 1⟩

/-- A `current_assignments` entry with a negative `duration_hours` value. -/
def negativeAssignment : CurrentAssignment := ⟨"s1", -1000⟩

/-- A 2×2 cost matrix with a cheap diagonal. -/
def smallCostMatrix : Fin 2 → Fin 2 → ℚ := fun i j => if i = j then 0 else 1

/-! ## Theorems -/

/-- `_calculate_skill_match` returns 1.0 when the shift requires no
skills. -/
theorem calculateSkillMatch_nil (staffSkills : List String) :
    calculateSkillMatch staffSkills [] = 1 := by
  simp [calculateSkillMatch]

/-- `_calculate_skill_match` is the Jaccard similarity
`|S ∩ R| / |S ∪ R|` whenever the shift requires at least one skill. -/
theorem calculateSkillMatch_jaccard (staffSkills requiredSkills : List String)
    (h : requiredSkills ≠ []) :
    calculateSkillMatch staffSkills requiredSkills =
      ((staffSkills.toFinset ∩ requiredSkills.toFinset).card : ℚ) /
        ((staffSkills.toFinset ∪ requiredSkills.toFinset).card : ℚ) := by
  unfold calculateSkillMatch
  rw [if_neg h]
  have hr : requiredSkills.toFinset ≠ ∅ := by
    simpa [List.toFinset_eq_empty_iff] using h
  rw [if_neg hr, if_pos]
  obtain ⟨x, hx⟩ := Finset.nonempty_iff_ne_empty.mpr hr
  exact Finset.card_pos.mpr ⟨x, Finset.mem_union_right _ hx⟩

/-- C3.  For every staff list, shift list and constraints, each entry of
the Scoring Engine's cost matrix is `1 − suitability` where suitability is
the fixed weighted sum `0.30·skill + 0.25·availability + 0.20·preference +
0.15·department − 0.10·workload_penalty`, the skill score is the Jaccard
similarity of the two skill sets (1.0 when the shift requires none), and
the workload penalty is `max(0, current_workload − 0.8·max_hours)`. -/
theorem costMatrix_matches_spec (staff : List StaffProfile)
    (shifts : List ShiftRequirement) (constraints : OptimizationConstraints)
    (i : Fin staff.length) (j : Fin shifts.length) :
    calculateCostMatrix staff shifts constraints i j =
      1 - (0.30 * calculateSkillMatch (staff.get i).skills (shifts.get j).requiredSkills
        + 0.25 * checkAvailability (staff.get i) (shifts.get j)
        + 0.20 * calculatePreferenceScore (staff.get i) (shifts.get j)
        + 0.15 * (if (staff.get i).department = (shifts.get j).department then (1 : ℚ) else 0.5)
        - 0.10 * max 0 ((staff.get i).currentWorkload - 0.8 * ((staff.get i).maxHoursPerWeek : ℚ)))
    ∧ ((shifts.get j).requiredSkills = [] →
        calculateSkillMatch (staff.get i).skills (shifts.get j).requiredSkills = 1)
    ∧ ((shifts.get j).requiredSkills ≠ [] →
        calculateSkillMatch (staff.get i).skills (shifts.get j).requiredSkills =
          (((staff.get i).skills.toFinset ∩ (shifts.get j).requiredSkills.toFinset).card : ℚ) /
            (((staff.get i).skills.toFinset ∪ (shifts.get j).requiredSkills.toFinset).card : ℚ)) := by
  refine ⟨?_, ?_, ?_⟩
  · unfold calculateCostMatrix
    have : (staff.get i).currentWorkload - 0.8 * ((staff.get i).maxHoursPerWeek : ℚ) =
        (staff.get i).currentWorkload - ((staff.get i).maxHoursPerWeek : ℚ) * 0.8 := by ring
    rw [this]; ring
  · intro h; rw [h]; exact calculateSkillMatch_nil _
  · intro h; exact calculateSkillMatch_jaccard _ _ h

/-- Witness for `costMatrix_matches_spec` at a concrete 1×1 instance,
discharging both skill-branch hypotheses. -/
theorem costMatrix_matches_spec_witness :
    calculateSkillMatch (([workedStaff].get ⟨0, by norm_num⟩).skills)
        (([morningShift].get ⟨0, by norm_num⟩).requiredSkills) = 1 :=
  (costMatrix_matches_spec [workedStaff] [morningShift] sampleConstraints
    ⟨0, by norm_num⟩ ⟨0, by norm_num⟩).2.1 rfl

/-- C9 counterexample.  A staff member satisfying the claim's hypotheses
(`fatigue_level ∈ [0,1]`, `max_hours_per_week > 0`) whose predicted burnout
risk is negative, because a negative `duration_hours` entry drives the
utilization term below zero: the claimed bound "risk always lies in
[0, 1]" is false. -/
theorem burnoutRisk_counterexample :
    (0 ≤ workedStaff.fatigueLevel ∧ workedStaff.fatigueLevel ≤ 1 ∧
      0 < (workedStaff.maxHoursPerWeek : ℚ)) ∧
    predictBurnoutRiskFor workedStaff [negativeAssignment] < 0 := by
  constructor
  · refine ⟨le_refl _, by norm_num [workedStaff], by norm_num [workedStaff]⟩
  · norm_num [predictBurnoutRiskFor, assignedHoursFor, workedStaff, negativeAssignment,
      min_def, max_def, List.filter]

/-- C9 (amended).  For fatigue in [0,1] and positive max hours, the burnout
risk equals `min(0.4, util·0.4) + fatigue·0.3 + min(0.2, max(0, hours −
38.5)·0.01) + 0.10` clamped to 1.0; the risk never exceeds 1, and it is
non-negative whenever the summed assigned hours are non-negative (the
source puts no sign constraint on `duration_hours`, so without that extra
hypothesis the risk can be negative). -/
theorem burnoutRisk_formula (p : StaffProfile) (assignments : List CurrentAssignment)
    (hf0 : 0 ≤ p.fatigueLevel) (hf1 : p.fatigueLevel ≤ 1)
    (hmax : 0 < (p.maxHoursPerWeek : ℚ)) :
    predictBurnoutRiskFor p assignments =
      min (min 0.4 (assignedHoursFor assignments p.staffId / (p.maxHoursPerWeek : ℚ) * 0.4)
        + p.fatigueLevel * 0.3
        + min 0.2 (max 0 (assignedHoursFor assignments p.staffId - 38.5) * 0.01) + 0.1) 1
    ∧ predictBurnoutRiskFor p assignments ≤ 1
    ∧ (0 ≤ assignedHoursFor assignments p.staffId →
        0 ≤ predictBurnoutRiskFor p assignments) := by
  refine ⟨?_, ?_, ?_⟩
  · simp only [predictBurnoutRiskFor, if_pos hmax]
    rw [min_comm (0.4 : ℚ) _, min_comm (0.2 : ℚ) _]
  · simp only [predictBurnoutRiskFor]
    exact min_le_right _ _
  · intro hh
    simp only [predictBurnoutRiskFor, if_pos hmax]
    have h1 : (0 : ℚ) ≤ min (assignedHoursFor assignments p.staffId /
        (p.maxHoursPerWeek : ℚ) * 0.4) 0.4 :=
      le_min (by positivity) (by norm_num)
    have h2 : (0 : ℚ) ≤ p.fatigueLevel * 0.3 := by positivity
    have h3 : (0 : ℚ) ≤ min (max 0 (assignedHoursFor assignments p.staffId - 38.5) * 0.01) 0.2 :=
      le_min (by positivity) (by norm_num)
    have : (0 : ℚ) ≤ min (assignedHoursFor assignments p.staffId /
          (p.maxHoursPerWeek : ℚ) * 0.4) 0.4 + p.fatigueLevel * 0.3 +
          min (max 0 (assignedHoursFor assignments p.staffId - 38.5) * 0.01) 0.2 + 0.1 := by
      linarith
    exact le_min this (by norm_num)

/-- Witness for `burnoutRisk_formula`: at the concrete rested staff member
with no assignments all hypotheses hold and the risk is non-negative. -/
theorem burnoutRisk_formula_witness :
    0 ≤ predictBurnoutRiskFor restedStaff [] :=
  (burnoutRisk_formula restedStaff []
    (le_refl _) (by norm_num [restedStaff]) (by norm_num [restedStaff])).2.2
    (by norm_num [assignedHoursFor])

/-- The workload-fairness entry of the metrics dict, extracted. -/
theorem metricsWorkloadFairness (staff : List StaffProfile)
    (shifts : List ShiftRequirement)
    (assignments : List (Assignment staff.length shifts.length))
    (h : assignments ≠ []) :
    Option.map OptimizationMetrics.workloadFairness
        (calculateOptimizationMetrics staff shifts assignments) =
      some ((1 - calculateGiniCoefficient (perStaffHours staff shifts assignments)) * 100) := by
  simp [calculateOptimizationMetrics, h]

/-- The per-staff hour vector of the concrete two-staff, one-shift
instance. -/
theorem perStaffHours_concrete :
    perStaffHours [workedStaff, restedStaff] [tenHourShift] [loneAssignment] = [10, 0] := by
  have hfr : List.finRange 2 = [0, 1] := by decide
  simp [perStaffHours, hfr, loneAssignment, tenHourShift, List.filter]

/-- C8 counterexample.  For two staff and one validated 10-hour assignment
the per-staff hour vector is `[10, 0]`; the source reports workload
fairness 50 (its Gini has the conventional ½ factor: `0.5·mad/mean =
0.5`), while the claim's ½-free formula (`mad/mean = 1`) would give
fairness 0.  The claimed equality fails at this input. -/
theorem workloadFairness_counterexample :
    Option.map OptimizationMetrics.workloadFairness
        (calculateOptimizationMetrics [workedStaff, restedStaff] [tenHourShift]
          [loneAssignment]) = some 50
    ∧ (1 - giniAsClaimed (perStaffHours [workedStaff, restedStaff] [tenHourShift]
        [loneAssignment])) * 100 = 0
    ∧ (50 : ℚ) ≠ 0 := by
  refine ⟨?_, ?_, by norm_num⟩
  · rw [metricsWorkloadFairness _ _ _ (by simp), perStaffHours_concrete]
    norm_num [calculateGiniCoefficient]
  · rw [perStaffHours_concrete]; norm_num [giniAsClaimed]

/-- C8 (amended).  For every non-empty validated assignment set the
reported workload fairness equals `(1 − Gini(per-staff hours)) × 100`,
where the source's Gini is **half** the mean absolute pairwise difference
divided by the mean (`0.5·rmad`, the conventional Gini normalisation), and
0 when the mean is 0; `Gini([10,10,10]) = 0` holds. -/
theorem workloadFairness_formula (staff : List StaffProfile)
    (shifts : List ShiftRequirement)
    (assignments : List (Assignment staff.length shifts.length))
    (h : assignments ≠ []) :
    Option.map OptimizationMetrics.workloadFairness
        (calculateOptimizationMetrics staff shifts assignments) =
      some ((1 - calculateGiniCoefficient (perStaffHours staff shifts assignments)) * 100)
    ∧ (∀ x : List ℚ, x.sum / (x.length : ℚ) ≠ 0 →
        calculateGiniCoefficient x =
          0.5 * (((x.map fun a => (x.map fun b => |a - b|).sum).sum /
            ((x.length : ℚ) * (x.length : ℚ))) / (x.sum / (x.length : ℚ))))
    ∧ calculateGiniCoefficient [10, 10, 10] = 0 := by
  refine ⟨?_, ?_, ?_⟩
  · simp [calculateOptimizationMetrics, h]
  · intro x hx
    simp [calculateGiniCoefficient, hx]
  · norm_num [calculateGiniCoefficient]

/-- Witness for `workloadFairness_formula` at the concrete two-staff,
one-shift input. -/
theorem workloadFairness_formula_witness :
    Option.map OptimizationMetrics.workloadFairness
        (calculateOptimizationMetrics [workedStaff, restedStaff] [tenHourShift]
          [loneAssignment]) =
      some ((1 - calculateGiniCoefficient (perStaffHours [workedStaff, restedStaff]
        [tenHourShift] [loneAssignment])) * 100) :=
  (workloadFairness_formula [workedStaff, restedStaff] [tenHourShift] [loneAssignment]
    (by simp)).1

/-- C2 counterexample.  A staff member with
`current_workload = max_hours_per_week` (= 38) is assigned a further
8-hour shift; the Constraint Validator keeps the assignment instead of
dropping it, because its accumulated-hours tracker starts at 0 and never
reads `current_workload` (and the locally collected violation strings are
discarded, so no "Exceeds max hours" violation could be surfaced either). -/
theorem maxedOutStaff_counterexample :
    workedStaff.currentWorkload = (workedStaff.maxHoursPerWeek : ℚ)
    ∧ applyConstraints [workedStaff] [morningShift] sampleConstraints [extraAssignment]
        = [extraAssignment]
    ∧ [extraAssignment] ≠ ([] : List (Assignment 1 1)) := by
  refine ⟨by norm_num [workedStaff], ?_, by simp⟩
  norm_num [applyConstraints, validateLoop, violatesConstraints, calculateSkillMatch,
    List.insertionSort, List.orderedInsert, sampleConstraints, workedStaff, morningShift,
    extraAssignment]

/-- C2 (amended).  The Constraint Validator ignores `current_workload`: its
per-staff accumulated hours start at zero, so a staff member already at
`current_workload = max_hours_per_week` still has any single further shift
accepted — not dropped — whenever the shift's own duration fits within
`max_hours_per_week` and the skill threshold is met; no violation message
is surfaced in the output. -/
theorem applyConstraints_ignores_currentWorkload (staff : List StaffProfile)
    (shifts : List ShiftRequirement) (constraints : OptimizationConstraints)
    (a : Assignment staff.length shifts.length)
    (hdur : (shifts.get a.shiftIndex).durationHours ≤
      ((staff.get a.staffIndex).maxHoursPerWeek : ℚ))
    (hskill : constraints.skillMatchThreshold ≤
      calculateSkillMatch (staff.get a.staffIndex).skills
        (shifts.get a.shiftIndex).requiredSkills) :
    applyConstraints staff shifts constraints [a] = [a] := by
  have hv : violatesConstraints staff shifts constraints ⟨fun _ => 0, fun _ => none⟩ a
      = false := by
    simp only [violatesConstraints, Bool.or_eq_false_iff, decide_eq_false_iff_not, not_lt,
      zero_add]
    exact ⟨⟨hdur, trivial⟩, hskill⟩
  simp [applyConstraints, List.insertionSort, List.orderedInsert, validateLoop, hv]

/-- Witness for `applyConstraints_ignores_currentWorkload` at the concrete
maxed-out staff member, discharging both hypotheses. -/
theorem applyConstraints_ignores_currentWorkload_witness :
    applyConstraints [workedStaff] [morningShift] sampleConstraints [extraAssignment]
      = [extraAssignment] :=
  applyConstraints_ignores_currentWorkload [workedStaff] [morningShift] sampleConstraints
    extraAssignment (by norm_num [workedStaff, morningShift, extraAssignment])
    (by norm_num [workedStaff, morningShift, extraAssignment, sampleConstraints,
      calculateSkillMatch])

/-- A list of assignments over an empty staff list or an empty shift list
is necessarily empty (its indices would inhabit `Fin 0`). -/
theorem assignmentList_eq_nil {n m : ℕ} (h : n = 0 ∨ m = 0)
    (l : List (Assignment n m)) : l = [] := by
  cases l with
  | nil => rfl
  | cons a _ =>
    rcases h with h | h
    · subst h; exact a.staffIndex.elim0
    · subst h; exact a.shiftIndex.elim0

/-- Inversion of the success path of `optimize_schedule`: a successful
pipeline result carries exactly the validated assignments and the metrics
computed from them. -/
theorem optimizePipeline_ok_inv (staff : List StaffProfile)
    (shifts : List ShiftRequirement) (constraints : OptimizationConstraints)
    (optimizationType : String) (r : ScheduleOptimizationResult staff.length shifts.length)
    (h : optimizePipeline staff shifts constraints optimizationType = Except.ok r) :
    r.metrics = calculateOptimizationMetrics staff shifts r.assignments := by
  unfold optimizePipeline at h
  cases h1 : createStaffMatrix staff with
  | error e => rw [h1] at h; simp [bind, Except.bind] at h
  | ok sm =>
    rw [h1] at h
    simp only [bind, Except.bind] at h
    cases h2 : runOptimizationStrategy optimizationType
        (calculateCostMatrix staff shifts constraints) with
    | error e => rw [h2] at h; simp at h
    | ok assignments =>
      rw [h2] at h
      rw [Except.ok.injEq] at h
      rw [← h]

/-- C6 (amended).  For an empty staff list or an empty shift list,
`optimize_schedule` returns an empty assignment list and an **empty**
metrics dict — it contains no coverage entry at all (rather than
`coverage = 0` as claimed), because `_calculate_optimization_metrics`
returns `{}` for an empty assignment set.  The call never throws past the
public boundary: the embedding's total function returns the `failed`
fallback result on internal exceptions (which do occur for a non-empty
staff list with no shifts under the balanced strategy). -/
theorem optimizeSchedule_empty_inputs (staff : List StaffProfile)
    (shifts : List ShiftRequirement) (constraints : OptimizationConstraints)
    (optimizationType : String) (h : staff = [] ∨ shifts = []) :
    (optimizeSchedule staff shifts constraints optimizationType).assignments = []
    ∧ (optimizeSchedule staff shifts constraints optimizationType).metrics = none := by
  have hnm : staff.length = 0 ∨ shifts.length = 0 := by
    rcases h with h | h
    · left; rw [h]; rfl
    · right; rw [h]; rfl
  unfold optimizeSchedule
  cases hp : optimizePipeline staff shifts constraints optimizationType with
  | error e => exact ⟨rfl, rfl⟩
  | ok r =>
    have hA : r.assignments = [] := assignmentList_eq_nil hnm r.assignments
    have hM := optimizePipeline_ok_inv staff shifts constraints optimizationType r hp
    rw [hA] at hM
    simp only [calculateOptimizationMetrics, if_pos rfl] at hM
    exact ⟨hA, hM⟩

/-- Witness for `optimizeSchedule_empty_inputs` at a concrete empty staff
list. -/
theorem optimizeSchedule_empty_inputs_witness :
    (optimizeSchedule [] [morningShift] sampleConstraints "efficiency").assignments = []
    ∧ (optimizeSchedule [] [morningShift] sampleConstraints "efficiency").metrics = none :=
  optimizeSchedule_empty_inputs [] [morningShift] sampleConstraints "efficiency"
    (Or.inl rfl)

/-- C6 counterexample.  With one staff member and no shifts (balanced
strategy, the default), the returned result's metrics dict is empty: it
does not contain a `coverage = 0` entry, contradicting the claim that the
result "has coverage = 0".  (The assignment list is empty and nothing
escapes the public boundary, as the claim also says — those parts hold.) -/
theorem emptyShifts_coverage_counterexample :
    (optimizeSchedule [workedStaff] [] sampleConstraints "balanced").metrics = none
    ∧ Option.map OptimizationMetrics.coveragePercentage
        (optimizeSchedule [workedStaff] [] sampleConstraints "balanced").metrics ≠ some 0 := by
  have hm : (optimizeSchedule [workedStaff] [] sampleConstraints "balanced").metrics
      = none := by
    simp [optimizeSchedule, optimizePipeline, createStaffMatrix, runOptimizationStrategy,
      balancedOptimization, fairnessOptimization, workedStaff, sampleConstraints,
      Except.bind, bind, List.mapM, List.mapM.loop, pure, Except.pure]
  exact ⟨hm, by rw [hm]; simp⟩

/-- C7.  Whenever the internal computation of `optimize_schedule` raises,
the call returns (instead of throwing) a result with status `"failed"`,
an empty assignment list, the error message among the violations, and the
manual-scheduling fallback recommendation. -/
theorem optimizeSchedule_exception_failed (staff : List StaffProfile)
    (shifts : List ShiftRequirement) (constraints : OptimizationConstraints)
    (optimizationType : String) (e : String)
    (h : optimizePipeline staff shifts constraints optimizationType = Except.error e) :
    optimizeSchedule staff shifts constraints optimizationType =
      { status := "failed", assignments := [], metrics := none,
        constraintsViolations := [e],
        recommendations := ["Fallback to manual scheduling"] } := by
  unfold optimizeSchedule
  rw [h]

/-- Witness for `optimizeSchedule_exception_failed`: the balanced strategy
on one staff member and zero shifts raises inside `_fairness_optimization`
(`np.max` of an empty row), and the call indeed returns the failed-status
fallback result. -/
theorem optimizeSchedule_exception_failed_witness :
    optimizeSchedule [workedStaff] [] sampleConstraints "balanced" =
      { status := "failed", assignments := [], metrics := none,
        constraintsViolations :=
          ["zero-size array to reduction operation maximum which has no identity"],
        recommendations := ["Fallback to manual scheduling"] } :=
  optimizeSchedule_exception_failed [workedStaff] [] sampleConstraints "balanced"
    "zero-size array to reduction operation maximum which has no identity"
    (by simp [optimizePipeline, createStaffMatrix, runOptimizationStrategy,
      balancedOptimization, fairnessOptimization, workedStaff,
      Except.bind, bind, List.mapM, List.mapM.loop, pure, Except.pure])

/-- C4.  For every cost matrix, the efficiency strategy's returned
assignment has cardinality `min n m` and its total assignment cost is ≤
the total cost of every other one-to-one assignment of that same
cardinality — Hungarian optimality; in particular it is ≤ any other
strategy's comparable exact assignment over the same matrix. -/
theorem hungarianOptimization_minimal {n m : ℕ} (c : Fin n → Fin m → ℚ)
    (l' : List (Fin n × Fin m)) (h1 : IsMatchingList l')
    (h2 : l'.length = min n m) :
    ((hungarianOptimization c).map Assignment.assignmentCost).sum ≤ matchingListCost c l'
    ∧ (hungarianOptimization c).length = min n m := by
  have hnd : l'.Nodup := List.Nodup.of_map _ h1.1
  have hsub : l' ⊆ allPairs n m := by
    intro p hp
    cases p with
    | mk i j => exact List.mem_product.mpr ⟨List.mem_finRange _, List.mem_finRange _⟩
  obtain ⟨l'', hperm, hsl⟩ := List.subperm_of_subset hnd hsub
  have h1'' : IsMatchingList l'' :=
    ⟨(hperm.map Prod.fst).nodup_iff.mpr h1.1, (hperm.map Prod.snd).nodup_iff.mpr h1.2⟩
  have h2'' : l''.length = min n m := by rw [hperm.length_eq, h2]
  have hmem : l'' ∈ fullMatchingLists n m := by
    unfold fullMatchingLists
    rw [List.mem_filter]
    exact ⟨List.mem_sublists.mpr hsl, by simp [h1'', h2'']⟩
  obtain ⟨l0, hl0⟩ :
      ∃ l0, (fullMatchingLists n m).argmin (matchingListCost c) = some l0 := by
    cases hargs : (fullMatchingLists n m).argmin (matchingListCost c) with
    | none => exact absurd (List.argmin_eq_none.mp hargs) (List.ne_nil_of_mem hmem)
    | some x => exact ⟨x, rfl⟩
  have hl0mem : l0 ∈ fullMatchingLists n m := List.argmin_mem (Option.mem_def.mpr hl0)
  have hle : matchingListCost c l0 ≤ matchingListCost c l'' :=
    List.le_of_mem_argmin hmem (Option.mem_def.mpr hl0)
  have hcost : matchingListCost c l'' = matchingListCost c l' := by
    unfold matchingListCost
    exact List.Perm.sum_eq (hperm.map fun p => c p.1 p.2)
  constructor
  · unfold hungarianOptimization linearSumAssignment
    rw [hl0]
    have hmaps : ((l0.map fun p =>
        ({ staffIndex := p.1, shiftIndex := p.2, assignmentCost := c p.1 p.2,
           suitability := 1 - c p.1 p.2 } : Assignment n m)).map
          Assignment.assignmentCost) = l0.map fun p => c p.1 p.2 := by
      rw [List.map_map]; rfl
    rw [hmaps]
    exact le_of_le_of_eq hle hcost
  · unfold hungarianOptimization linearSumAssignment
    rw [hl0, List.length_map]
    have := (List.mem_filter.mp hl0mem).2
    simp only [decide_eq_true_eq] at this
    exact this.2

/-- Witness for `hungarianOptimization_minimal` on a concrete 2×2 matrix
against the concrete off-diagonal assignment. -/
theorem hungarianOptimization_minimal_witness :
    ((hungarianOptimization smallCostMatrix).map Assignment.assignmentCost).sum ≤
      matchingListCost smallCostMatrix [(0, 1), (1, 0)]
    ∧ (hungarianOptimization smallCostMatrix).length = min 2 2 :=
  hungarianOptimization_minimal smallCostMatrix [(0, 1), (1, 0)] (by decide) (by decide)

/-- The greedy merge keeps pairwise-distinct staff indices and shift
indices, and never emits an index already claimed by the accumulators. -/
theorem greedyMerge_spec {n m : ℕ} :
    ∀ (l : List (Assignment n m)) (S : Finset (Fin n)) (T : Finset (Fin m)),
      ((greedyMerge S T l).map Assignment.staffIndex).Nodup
      ∧ ((greedyMerge S T l).map Assignment.shiftIndex).Nodup
      ∧ ∀ a ∈ greedyMerge S T l, a.staffIndex ∉ S ∧ a.shiftIndex ∉ T := by
  intro l
  induction l with
  | nil => exact fun S T => ⟨List.nodup_nil, List.nodup_nil, by simp [greedyMerge]⟩
  | cons a rest ih =>
    intro S T
    by_cases h : a.staffIndex ∉ S ∧ a.shiftIndex ∉ T
    · rw [greedyMerge, if_pos h]
      obtain ⟨ih1, ih2, ih3⟩ := ih (insert a.staffIndex S) (insert a.shiftIndex T)
      refine ⟨?_, ?_, ?_⟩
      · rw [List.map_cons, List.nodup_cons]
        refine ⟨fun hmem => ?_, ih1⟩
        obtain ⟨b, hb, hbeq⟩ := List.mem_map.mp hmem
        exact (ih3 b hb).1 (hbeq ▸ Finset.mem_insert_self _ _)
      · rw [List.map_cons, List.nodup_cons]
        refine ⟨fun hmem => ?_, ih2⟩
        obtain ⟨b, hb, hbeq⟩ := List.mem_map.mp hmem
        exact (ih3 b hb).2 (hbeq ▸ Finset.mem_insert_self _ _)
      · intro b hb
        rcases List.mem_cons.mp hb with rfl | hb'
        · exact h
        · exact ⟨fun hS => (ih3 b hb').1 (Finset.mem_insert_of_mem hS),
            fun hT => (ih3 b hb').2 (Finset.mem_insert_of_mem hT)⟩
    · rw [greedyMerge, if_neg h]
      exact ih S T

/-- The validator's replay loop only ever drops elements: its output is a
sublist of its input. -/
theorem validateLoop_sublist (staff : List StaffProfile)
    (shifts : List ShiftRequirement) (constraints : OptimizationConstraints) :
    ∀ (l : List (Assignment staff.length shifts.length))
      (st : ValidatorState staff.length),
      List.Sublist (validateLoop staff shifts constraints st l) l := by
  intro l
  induction l with
  | nil => intro st; rw [validateLoop]
  | cons a rest ih =>
    intro st
    cases hv : violatesConstraints staff shifts constraints st a with
    | true =>
      rw [validateLoop, if_pos hv]
      exact (ih st).cons a
    | false =>
      rw [validateLoop, if_neg (by rw [hv]; exact Bool.false_ne_true)]
      exact (ih (acceptAssignment shifts st a)).cons₂ a

/-- C10.  Any assignment list produced by the balanced strategy's greedy
merge uses each staff index at most once and each shift index at most
once; hence it has at most `min n m` entries, and the coverage ratio of
its validated subset (validated count / total shifts, 0 when there are no
shifts) never exceeds 1. -/
theorem balancedMerge_oneToOne (staff : List StaffProfile)
    (shifts : List ShiftRequirement) (constraints : OptimizationConstraints)
    (merged : List (Assignment staff.length shifts.length))
    (h : balancedOptimization (calculateCostMatrix staff shifts constraints)
      = Except.ok merged) :
    (((merged.map Assignment.staffIndex).Nodup
      ∧ (merged.map Assignment.shiftIndex).Nodup)
    ∧ merged.length ≤ min staff.length shifts.length)
    ∧ (if 0 < shifts.length then
        ((applyConstraints staff shifts constraints merged).length : ℚ) /
          (shifts.length : ℚ)
       else 0) ≤ 1 := by
  unfold balancedOptimization at h
  cases hf : fairnessOptimization (calculateCostMatrix staff shifts constraints) with
  | error e => rw [hf] at h; simp [bind, Except.bind] at h
  | ok fair =>
    rw [hf] at h
    simp only [bind, Except.bind, Except.ok.injEq] at h
    obtain ⟨hnd1, hnd2, _⟩ := greedyMerge_spec
      ((hungarianOptimization (calculateCostMatrix staff shifts constraints) ++
        fair).insertionSort bySuitabilityDesc) (∅ : Finset (Fin staff.length))
      (∅ : Finset (Fin shifts.length))
    rw [h] at hnd1 hnd2
    have hlen1 : merged.length ≤ staff.length := by
      have := hnd1.length_le_card
      simpa using this
    have hlen2 : merged.length ≤ shifts.length := by
      have := hnd2.length_le_card
      simpa using this
    refine ⟨⟨⟨hnd1, hnd2⟩, le_min hlen1 hlen2⟩, ?_⟩
    by_cases hpos : 0 < shifts.length
    · rw [if_pos hpos]
      rw [div_le_one (by exact_mod_cast hpos)]
      have hsub : (applyConstraints staff shifts constraints merged).length ≤
          merged.length := by
        have := (validateLoop_sublist staff shifts constraints
          (merged.insertionSort (byShiftStart shifts)) ⟨fun _ => 0, fun _ => none⟩).length_le
        rwa [List.length_insertionSort] at this
      exact_mod_cast le_trans hsub hlen2
    · rw [if_neg hpos]; norm_num

/-- Witness for `balancedMerge_oneToOne` at the degenerate 0×0 instance,
where the balanced strategy succeeds and returns the empty merge. -/
theorem balancedMerge_oneToOne_witness :
    ((((([] : List (Assignment 0 0)).map Assignment.staffIndex).Nodup
      ∧ (([] : List (Assignment 0 0)).map Assignment.shiftIndex).Nodup)
    ∧ ([] : List (Assignment 0 0)).length ≤ min 0 0)
    ∧ (if 0 < ([] : List ShiftRequirement).length then
        ((applyConstraints [] [] sampleConstraints ([] : List (Assignment 0 0))).length : ℚ) /
          (([] : List ShiftRequirement).length : ℚ)
       else 0) ≤ 1) :=
  balancedMerge_oneToOne [] [] sampleConstraints []
    (by simp [balancedOptimization, fairnessOptimization, hungarianOptimization,
      linearSumAssignment, fullMatchingLists, allPairs, List.finRange,
      bind, Except.bind, greedyMerge, List.insertionSort])

instance (shifts : List ShiftRequirement) {n : ℕ} :
    IsTotal (Assignment n shifts.length) (byShiftStart shifts) :=
  ⟨fun _ _ => le_total _ _⟩

instance (shifts : List ShiftRequirement) {n : ℕ} :
    IsTrans (Assignment n shifts.length) (byShiftStart shifts) :=
  ⟨fun _ _ _ => le_trans⟩

/-- An assignment passes all three validator checks exactly when its
shift's duration fits in the staff member's weekly cap on top of the hours
accumulated so far, the rest since the previously accepted shift (when one
exists) meets the minimum, and the skill match meets the threshold. -/
theorem violatesConstraints_eq_false_iff (staff : List StaffProfile)
    (shifts : List ShiftRequirement) (constraints : OptimizationConstraints)
    (st : ValidatorState staff.length) (a : Assignment staff.length shifts.length) :
    violatesConstraints staff shifts constraints st a = false ↔
      st.hours a.staffIndex + (shifts.get a.shiftIndex).durationHours ≤
        ((staff.get a.staffIndex).maxHoursPerWeek : ℚ)
      ∧ (∀ e, st.lastEnd a.staffIndex = some e →
          (constraints.minRestBetweenShifts : ℚ) ≤
            (shifts.get a.shiftIndex).startTime.epochHours - e)
      ∧ constraints.skillMatchThreshold ≤
          calculateSkillMatch (staff.get a.staffIndex).skills
            (shifts.get a.shiftIndex).requiredSkills := by
  cases hle : st.lastEnd a.staffIndex with
  | none =>
    simp only [violatesConstraints, hle, Bool.or_eq_false_iff,
      decide_eq_false_iff_not, not_lt]
    constructor
    · rintro ⟨⟨h1, -⟩, h3⟩
      exact ⟨h1, fun e he => absurd he (by simp), h3⟩
    · rintro ⟨h1, -, h3⟩
      exact ⟨⟨h1, trivial⟩, h3⟩
  | some e0 =>
    simp only [violatesConstraints, hle, Bool.or_eq_false_iff,
      decide_eq_false_iff_not, not_lt]
    constructor
    · rintro ⟨⟨h1, h2⟩, h3⟩
      refine ⟨h1, fun e he => ?_, h3⟩
      rw [Option.some.injEq] at he
      subst he
      linarith [h2]
    · rintro ⟨h1, h2, h3⟩
      exact ⟨⟨h1, by linarith [h2 e0 rfl]⟩, h3⟩

/-- The validator's output is sorted by shift start time (it is a sublist
of the sorted replay order). -/
theorem applyConstraints_sorted (staff : List StaffProfile)
    (shifts : List ShiftRequirement) (constraints : OptimizationConstraints)
    (A : List (Assignment staff.length shifts.length)) :
    List.Sorted (byShiftStart shifts) (applyConstraints staff shifts constraints A) := by
  unfold applyConstraints
  exact List.Pairwise.sublist
    (validateLoop_sublist staff shifts constraints
      (A.insertionSort (byShiftStart shifts)) ⟨fun _ => 0, fun _ => none⟩)
    (List.sorted_insertionSort (byShiftStart shifts) A)

/-- Replaying the validator's own output from the same initial state
accepts everything again. -/
theorem validateLoop_idem (staff : List StaffProfile)
    (shifts : List ShiftRequirement) (constraints : OptimizationConstraints) :
    ∀ (l : List (Assignment staff.length shifts.length))
      (st : ValidatorState staff.length),
      validateLoop staff shifts constraints st
        (validateLoop staff shifts constraints st l)
      = validateLoop staff shifts constraints st l := by
  intro l
  induction l with
  | nil => intro st; simp [validateLoop]
  | cons a rest ih =>
    intro st
    cases hv : violatesConstraints staff shifts constraints st a with
    | true =>
      rw [validateLoop, if_pos hv]
      exact ih st
    | false =>
      rw [validateLoop, if_neg (by rw [hv]; exact Bool.false_ne_true)]
      rw [validateLoop, if_neg (by rw [hv]; exact Bool.false_ne_true)]
      rw [ih (acceptAssignment shifts st a)]

/-- C5.  The Constraint Validator is idempotent: applying it to its own
output (with the same staff, shifts and constraints) returns the same
assignment list unchanged. -/
theorem applyConstraints_idempotent (staff : List StaffProfile)
    (shifts : List ShiftRequirement) (constraints : OptimizationConstraints)
    (A : List (Assignment staff.length shifts.length)) :
    applyConstraints staff shifts constraints
      (applyConstraints staff shifts constraints A)
    = applyConstraints staff shifts constraints A := by
  have hsorted := applyConstraints_sorted staff shifts constraints A
  unfold applyConstraints at hsorted ⊢
  rw [List.Sorted.insertionSort_eq hsorted]
  exact validateLoop_idem staff shifts constraints _ _

/-- Accumulated-hours invariant of the replay loop: if staff member `s`
has at least one accepted assignment, the state's hours for `s` plus the
durations of all of `s`'s accepted assignments stay within `s`'s weekly
cap. -/
theorem validateLoop_hours (staff : List StaffProfile)
    (shifts : List ShiftRequirement) (constraints : OptimizationConstraints)
    (s : Fin staff.length) :
    ∀ (l : List (Assignment staff.length shifts.length))
      (st : ValidatorState staff.length),
      (validateLoop staff shifts constraints st l).filter
          (fun a => decide (a.staffIndex = s)) ≠ [] →
      st.hours s + (((validateLoop staff shifts constraints st l).filter
          (fun a => decide (a.staffIndex = s))).map
          (fun a => (shifts.get a.shiftIndex).durationHours)).sum ≤
        ((staff.get s).maxHoursPerWeek : ℚ) := by
  intro l
  induction l with
  | nil => intro st hne; simp [validateLoop] at hne
  | cons a rest ih =>
    intro st hne
    cases hv : violatesConstraints staff shifts constraints st a with
    | true =>
      rw [validateLoop, if_pos hv] at hne ⊢
      exact ih st hne
    | false =>
      have hnv := (violatesConstraints_eq_false_iff staff shifts constraints st a).mp hv
      rw [validateLoop, if_neg (by rw [hv]; exact Bool.false_ne_true)] at hne ⊢
      by_cases ha : a.staffIndex = s
      · rw [List.filter_cons_of_pos (by simp [ha])] at hne ⊢
        rw [List.map_cons, List.sum_cons]
        have hupd : (acceptAssignment shifts st a).hours s =
            st.hours s + (shifts.get a.shiftIndex).durationHours := by
          subst ha
          exact Function.update_same _ _ _
        by_cases hr : (validateLoop staff shifts constraints
            (acceptAssignment shifts st a) rest).filter
            (fun b => decide (b.staffIndex = s)) = []
        · rw [hr]
          simp only [List.map_nil, List.sum_nil, add_zero]
          have h1 := hnv.1
          rw [ha] at h1
          linarith [h1]
        · have := ih (acceptAssignment shifts st a) hr
          rw [hupd] at this
          linarith [this]
      · rw [List.filter_cons_of_neg (by simp [ha])] at hne ⊢
        have hupd : (acceptAssignment shifts st a).hours s = st.hours s :=
          Function.update_noteq (fun hss => ha hss.symm) _ _
        have := ih (acceptAssignment shifts st a) hne
        rw [hupd] at this
        exact this

/-- Rest-period invariant of the replay loop: staff member `s`'s accepted
assignments, in replay order, are chained with at least the minimum rest
between consecutive ones, and the first of them respects the rest bound
with respect to the incoming state's recorded last shift end. -/
theorem validateLoop_chain (staff : List StaffProfile)
    (shifts : List ShiftRequirement) (constraints : OptimizationConstraints)
    (s : Fin staff.length) :
    ∀ (l : List (Assignment staff.length shifts.length))
      (st : ValidatorState staff.length),
      List.Chain' (fun a b => (constraints.minRestBetweenShifts : ℚ) ≤
          (shifts.get b.shiftIndex).startTime.epochHours -
            (shifts.get a.shiftIndex).endTime.epochHours)
        ((validateLoop staff shifts constraints st l).filter
          (fun a => decide (a.staffIndex = s)))
      ∧ (∀ b, ((validateLoop staff shifts constraints st l).filter
            (fun a => decide (a.staffIndex = s))).head? = some b →
          ∀ e, st.lastEnd s = some e →
            (constraints.minRestBetweenShifts : ℚ) ≤
              (shifts.get b.shiftIndex).startTime.epochHours - e) := by
  intro l
  induction l with
  | nil =>
    intro st
    constructor
    · simp [validateLoop]
    · intro b hb; simp [validateLoop] at hb
  | cons a rest ih =>
    intro st
    cases hv : violatesConstraints staff shifts constraints st a with
    | true =>
      rw [validateLoop, if_pos hv]
      exact ih st
    | false =>
      have hnv := (violatesConstraints_eq_false_iff staff shifts constraints st a).mp hv
      rw [validateLoop, if_neg (by rw [hv]; exact Bool.false_ne_true)]
      obtain ⟨ihc, ihh⟩ := ih (acceptAssignment shifts st a)
      by_cases ha : a.staffIndex = s
      · rw [List.filter_cons_of_pos (by simp [ha])]
        have hlast : (acceptAssignment shifts st a).lastEnd s =
            some (shifts.get a.shiftIndex).endTime.epochHours := by
          subst ha
          exact Function.update_same _ _ _
        constructor
        · rw [List.chain'_cons']
          refine ⟨fun y hy => ?_, ihc⟩
          exact ihh y (Option.mem_def.mp hy) _ hlast
        · intro b hb e he
          rw [List.head?_cons, Option.some.injEq] at hb
          subst hb
          have h2 := hnv.2.1
          rw [ha] at h2
          exact h2 e he
      · rw [List.filter_cons_of_neg (by simp [ha])]
        have hupd : (acceptAssignment shifts st a).lastEnd s = st.lastEnd s :=
          Function.update_noteq (fun hss => ha hss.symm) _ _
        exact ⟨ihc, fun b hb e he => ihh b hb e (by rw [hupd]; exact he)⟩

/-- C1.  For every input, staff member `s`'s validated assignments — which
come out sorted by shift start time — have at least
`min_rest_between_shifts` hours between each accepted shift's end and the
next accepted shift's start, and their total duration stays within `s`'s
`max_hours_per_week` (assuming the cap itself is non-negative, as a weekly
hour budget is). -/
theorem applyConstraints_laborLaw (staff : List StaffProfile)
    (shifts : List ShiftRequirement) (constraints : OptimizationConstraints)
    (A : List (Assignment staff.length shifts.length)) (s : Fin staff.length)
    (hmax : 0 ≤ ((staff.get s).maxHoursPerWeek : ℚ)) :
    List.Sorted (byShiftStart shifts)
      ((applyConstraints staff shifts constraints A).filter
        (fun a => decide (a.staffIndex = s)))
    ∧ List.Chain' (fun a b => (constraints.minRestBetweenShifts : ℚ) ≤
        (shifts.get b.shiftIndex).startTime.epochHours -
          (shifts.get a.shiftIndex).endTime.epochHours)
      ((applyConstraints staff shifts constraints A).filter
        (fun a => decide (a.staffIndex = s)))
    ∧ (((applyConstraints staff shifts constraints A).filter
        (fun a => decide (a.staffIndex = s))).map
        (fun a => (shifts.get a.shiftIndex).durationHours)).sum ≤
      ((staff.get s).maxHoursPerWeek : ℚ) := by
  refine ⟨(applyConstraints_sorted staff shifts constraints A).filter _, ?_, ?_⟩
  · unfold applyConstraints
    exact (validateLoop_chain staff shifts constraints s
      (A.insertionSort (byShiftStart shifts)) ⟨fun _ => 0, fun _ => none⟩).1
  · by_cases hne : (applyConstraints staff shifts constraints A).filter
        (fun a => decide (a.staffIndex = s)) = []
    · rw [hne]
      simpa using hmax
    · unfold applyConstraints at hne ⊢
      have := validateLoop_hours staff shifts constraints s
        (A.insertionSort (byShiftStart shifts)) ⟨fun _ => 0, fun _ => none⟩ hne
      simpa using this

/-- Witness for `applyConstraints_laborLaw` at the concrete 1×1 instance
(the cap 38 is non-negative). -/
theorem applyConstraints_laborLaw_witness :
    List.Sorted (byShiftStart [morningShift])
      ((applyConstraints [workedStaff] [morningShift] sampleConstraints
        [extraAssignment]).filter (fun a => decide (a.staffIndex = ⟨0, Nat.one_pos⟩)))
    ∧ List.Chain' (fun a b => ((sampleConstraints.minRestBetweenShifts : ℚ)) ≤
        (([morningShift].get b.shiftIndex)).startTime.epochHours -
          (([morningShift].get a.shiftIndex)).endTime.epochHours)
      ((applyConstraints [workedStaff] [morningShift] sampleConstraints
        [extraAssignment]).filter (fun a => decide (a.staffIndex = ⟨0, Nat.one_pos⟩)))
    ∧ (((applyConstraints [workedStaff] [morningShift] sampleConstraints
        [extraAssignment]).filter (fun a => decide (a.staffIndex = ⟨0, Nat.one_pos⟩))).map
        (fun a => (([morningShift].get a.shiftIndex)).durationHours)).sum ≤
      ((([workedStaff].get ⟨0, Nat.one_pos⟩).maxHoursPerWeek : ℚ)) :=
  applyConstraints_laborLaw [workedStaff] [morningShift] sampleConstraints
    [extraAssignment] ⟨0, Nat.one_pos⟩ (by norm_num [workedStaff])

end StaffScheduling
